import Mathlib

/-!
Shallow embedding of the fraudcrawler pipeline orchestrator
(`fraudcrawler/base/orchestrator.py` and its collaborators), with theorems
checking the natural-language specification against the code.

External collaborators (SERP search, Zyte detail fetch, OpenAI classifier)
are modelled as oracle functions passed in as parameters; a call that can
raise an exception is modelled as `Except String _`.  Queues are modelled as
the list of elements a worker dequeues, with `none` as the end-of-input
sentinel, matching the `await queue.get()` / `task_done` loops of the code.
-/

namespace FraudCrawler

/-- Language record (`fraudcrawler.base.base.Language`): name and lower-case code. -/
structure Language where
  name : String
  code : String
deriving DecidableEq, Repr

/-- Location record (`fraudcrawler.base.base.Location`): name and lower-case code. -/
structure Location where
  name : String
  code : String
deriving DecidableEq, Repr

/-- Host record (`fraudcrawler.base.base.Host`): a name and its (comma-split) domains. -/
structure Host where
  name : String
  domains : List String
deriving DecidableEq, Repr

/-- Modelled from the spec: `Enrichment` (the optional part of `Deepness`)
is declared in `fraudcrawler/base/base.py`, which is not among the sources;
its fields `additional_terms` and `additional_urls_per_term` are taken from
spec section 3. -/
structure Enrichment where
  additional_terms : Nat
  additional_urls_per_term : Nat
deriving DecidableEq, Repr

/-- Modelled from the spec: `Deepness` is declared in
`fraudcrawler/base/base.py`, which is not among the sources; fields
`num_results` and optional `enrichment` are taken from spec section 3. -/
structure Deepness where
  num_results : Nat
  enrichment : Option Enrichment := none
deriving DecidableEq, Repr

/-- Modelled from the spec: `Prompt` is declared in
`fraudcrawler/base/base.py`, which is not among the sources; fields are
taken from spec section 3 (`name` is the unique key into `classifications`,
`allowed_classes` the admissible outputs, `default_if_missing` the fallback). -/
structure Prompt where
  name : String
  context : String
  system_prompt : String
  user_prompt_template : String
  allowed_classes : Finset Int
  default_if_missing : Int
deriving DecidableEq

/-- Record returned by the search collaborator for one hit
(`SerpApi.apply` result entries, used at `orchestrator.py` lines 135-144). -/
structure SerpResult where
  url : String
  marketplace_name : String
  domain : String
  filtered : Bool
  filtered_at_stage : Option String
deriving DecidableEq, Repr

/-- `ProductItem` (`orchestrator.py` lines 20-43).  The Python `probability`
field is a float; no arithmetic is ever performed on it in the orchestrator,
so it is embedded as `Rat`.  The `classifications` dict is embedded as an
association list updated by `setEntry`. -/
structure ProductItem where
  search_term : String
  search_term_type : String
  url : String
  marketplace_name : String
  domain : String
  product_name : Option String := none
  product_price : Option String := none
  product_description : Option String := none
  product_images : Option (List String) := none
  probability : Option Rat := none
  classifications : List (String × Int) := []
  filtered : Bool := false
  filtered_at_stage : Option String := none
  is_relevant : Int := -1
deriving DecidableEq

/-- Dict-style update: replace the value at an existing key, else append. -/
def setEntry : List (String × Int) → String → Int → List (String × Int)
  | [], k, v => [(k, v)]
  | (k0, v0) :: rest, k, v =>
      if k0 = k then (k, v) :: rest else (k0, v0) :: setEntry rest k v

/-- Search task dict built by `Orchestrator._add_serp_items_for_search_term`
(`orchestrator.py` lines 377-399). -/
structure SearchTask where
  search_term : String
  search_term_type : String
  language : Language
  location : Location
  num_results : Nat
  marketplaces : Option (List Host) := none
  excluded_urls : Option (List Host) := none
deriving DecidableEq, Repr

/-- The two URL-seen sets owned by the orchestrator
(`orchestrator.py` lines 91-93). -/
structure DedupState where
  current : Finset String
  previous : Finset String
deriving DecidableEq

/-- Stage label written by current-run deduplication (`orchestrator.py` line 174). -/
def currentRunLabel : String := "URL collection (current run deduplication)"

/-- Stage label written by previous-run deduplication (`orchestrator.py` line 181). -/
def previousRunLabel : String := "URL collection (previous run deduplication)"

/-- Stage label written by the Zyte probability filter (`orchestrator.py` line 230). -/
def zyteThresholdLabel : String := "Zyte probability threshold"

/-- Body of the dedup decision in `Orchestrator._collect_url`
(`orchestrator.py` lines 167-186): returns the (possibly marked) product and
the updated state. -/
def collectUrlStep (st : DedupState) (product : ProductItem) :
    ProductItem × DedupState :=
  if product.filtered then (product, st)
  else if product.url ∈ st.current then
    ({ product with filtered := true, filtered_at_stage := some currentRunLabel }, st)
  else if product.url ∈ st.previous then
    ({ product with filtered := true, filtered_at_stage := some previousRunLabel }, st)
  else (product, { st with current := insert product.url st.current })

/-- Seeding of the previous-run set at the start of `Orchestrator.run`
(`orchestrator.py` lines 476-477): when the supplied list is truthy the
previous-run set is assigned `set(self._collected_urls_current_run)`;
otherwise nothing happens.  The Python `None` default is embedded as `[]`
(both are falsy). -/
def runSeedPrevious (st : DedupState) (previously_collected_urls : List String) :
    DedupState :=
  if previously_collected_urls.isEmpty then st
  else { st with previous := st.current }

/-- Item created by a search worker from one search hit
(`orchestrator.py` lines 136-144): the task's term and type, the hit's url,
marketplace, domain and filter flags; everything else keeps its default. -/
def mkProductItem (task : SearchTask) (res : SerpResult) : ProductItem :=
  { search_term := task.search_term
    search_term_type := task.search_term_type
    url := res.url
    marketplace_name := res.marketplace_name
    domain := res.domain
    filtered := res.filtered
    filtered_at_stage := res.filtered_at_stage }

/-- Details record returned by the detail collaborator
(`ZyteApi.get_details` plus the pure `extract_*` accessors used at
`orchestrator.py` lines 210-225; the extractors may report a missing field). -/
structure ZyteDetails where
  name : Option String := none
  price : Option String := none
  description : Option String := none
  images : Option (List String) := none
  probability : Option Rat := none
deriving DecidableEq

/-- Per-item body of `Orchestrator._zyte_execute` (`orchestrator.py` lines
207-234): an already-filtered item passes through untouched; otherwise the
detail fetch either raises (item forwarded as is), or populates the product
fields and applies the `keep_product` probability filter. -/
def zyteItem (getDetails : String → Except String ZyteDetails)
    (keepProduct : ZyteDetails → Bool) (product : ProductItem) : ProductItem :=
  if product.filtered then product
  else
    match getDetails product.url with
    | .error _ => product
    | .ok details =>
        let p := { product with
                    product_name := details.name
                    product_price := details.price
                    product_description := details.description
                    product_images := details.images
                    probability := details.probability }
        if keepProduct details then p
        else { p with filtered := true, filtered_at_stage := some zyteThresholdLabel }

/-- Type of the raw classifier collaborator call (the OpenAI request inside
`Processor.classify`); it may raise. -/
def ClassifierCall : Type :=
  Prompt → String → String → String → Except String Int

/-- Modelled from the spec: `Processor.classify` is called by
`Orchestrator._proc_execute` (`orchestrator.py` line 272) but the bundled
`processing/processor.py` predates it and does not define it.  Spec sections
4.5 and 7: with `name` or `description` absent the collaborator is not called
and `default_if_missing` is used; otherwise a call error or a class outside
`allowed_classes` falls back to `default_if_missing`.  The fallback makes the
call total, so it never raises into the caller. -/
def classify (call : ClassifierCall) (prompt : Prompt) (url : String)
    (name description : Option String) : Int :=
  match name, description with
  | some n, some d =>
      match call prompt url n d with
      | .error _ => prompt.default_if_missing
      | .ok c => if c ∈ prompt.allowed_classes then c else prompt.default_if_missing
  | _, _ => prompt.default_if_missing

/-- Per-item body of `Orchestrator._proc_execute` (`orchestrator.py` lines
261-281): an already-filtered item passes through; otherwise every configured
prompt is run and its result stored under the prompt's name.  The url, name
and description passed to `classify` are read from the incoming product once,
before the loop (lines 263-265). -/
def procItem (call : ClassifierCall) (prompts : List Prompt)
    (product : ProductItem) : ProductItem :=
  if product.filtered then product
  else
    prompts.foldl
      (fun q prompt =>
        { q with
            classifications :=
              setEntry q.classifications prompt.name
                (classify call prompt product.url product.product_name
                  product.product_description) })
      product

/-- Result of one worker's receive loop: the items it put on its output
queue, its final state, the number of queue elements it dequeued, and the
number of `task_done` calls it made. -/
structure WorkerRun (β σ : Type) where
  outputs : List β
  state : σ
  consumed : Nat
  taskDone : Nat
deriving DecidableEq

/-- Generic worker receive loop shared by all four stage workers
(`orchestrator.py` lines 123-148, 161-188, 201-236, 254-283): dequeue, stop
after acknowledging the first `none` sentinel, otherwise run the per-item
body and acknowledge.  Every dequeued element — sentinel, failed or
processed — gets exactly one `task_done`. -/
def runWorker {α β σ : Type} (body : σ → α → List β × σ) :
    σ → List (Option α) → WorkerRun β σ
  | st, [] => ⟨[], st, 0, 0⟩
  | st, none :: _ => ⟨[], st, 1, 1⟩
  | st, some a :: rest =>
      let r0 := body st a
      let r := runWorker body r0.2 rest
      ⟨r0.1 ++ r.outputs, r.state, r.consumed + 1, r.taskDone + 1⟩

/-- Per-task body of `Orchestrator._serp_execute` (`orchestrator.py` lines
129-147): a successful search emits one product per hit; a raised exception
is logged and emits nothing. -/
def serpBody (serpApply : SearchTask → Except String (List SerpResult))
    (_ : Unit) (task : SearchTask) : List ProductItem × Unit :=
  match serpApply task with
  | .error _ => ([], ())
  | .ok results => (results.map (mkProductItem task), ())

/-- Loop body of `Orchestrator._collect_url` (`orchestrator.py` lines
167-187): decide, then unconditionally put the product on the output queue. -/
def collectUrlBody (st : DedupState) (product : ProductItem) :
    List ProductItem × DedupState :=
  let r := collectUrlStep st product
  ([r.1], r.2)

/-- Loop body of `Orchestrator._zyte_execute`: the item is always forwarded. -/
def zyteBody (getDetails : String → Except String ZyteDetails)
    (keepProduct : ZyteDetails → Bool) (_ : Unit) (product : ProductItem) :
    List ProductItem × Unit :=
  ([zyteItem getDetails keepProduct product], ())

/-- Loop body of `Orchestrator._proc_execute`: the item is always forwarded. -/
def procBody (call : ClassifierCall) (prompts : List Prompt) (_ : Unit)
    (product : ProductItem) : List ProductItem × Unit :=
  ([procItem call prompts product], ())

/-- A search worker over the sequence of elements it dequeues. -/
def serpWorker (serpApply : SearchTask → Except String (List SerpResult))
    (ms : List (Option SearchTask)) : WorkerRun ProductItem Unit :=
  runWorker (serpBody serpApply) () ms

/-- The single dedup worker over the sequence of elements it dequeues. -/
def collectUrlWorker (st : DedupState) (ms : List (Option ProductItem)) :
    WorkerRun ProductItem DedupState :=
  runWorker collectUrlBody st ms

/-- A detail worker over the sequence of elements it dequeues. -/
def zyteWorker (getDetails : String → Except String ZyteDetails)
    (keepProduct : ZyteDetails → Bool) (ms : List (Option ProductItem)) :
    WorkerRun ProductItem Unit :=
  runWorker (zyteBody getDetails keepProduct) () ms

/-- A classify worker over the sequence of elements it dequeues. -/
def procWorker (call : ClassifierCall) (prompts : List Prompt)
    (ms : List (Option ProductItem)) : WorkerRun ProductItem Unit :=
  runWorker (procBody call prompts) () ms

/-- Number of queue elements a worker dequeues from a given element
sequence: everything up to and including the first sentinel. -/
def consumedCount {α : Type} : List (Option α) → Nat
  | [] => 0
  | none :: _ => 1
  | some _ :: rest => consumedCount rest + 1

/-- Number of proper items (non-sentinels) a worker dequeues. -/
def itemsConsumed {α : Type} : List (Option α) → Nat
  | [] => 0
  | none :: _ => 0
  | some _ :: rest => itemsConsumed rest + 1

/-- Dedup pass over the plain sequence of items flowing through the url
queue (the non-sentinel part of the dedup worker's input), returning the
forwarded items and the final state. -/
def collectUrlList (st : DedupState) : List ProductItem → List ProductItem × DedupState
  | [] => ([], st)
  | p :: rest =>
      let r := collectUrlStep st p
      let r2 := collectUrlList r.2 rest
      (r.1 :: r2.1, r2.2)

/-- Items arriving at the result collector, as the sequential composition of
the dedup, detail and classify stages over the items the search stage put on
the url queue.  Detail and classify workers transform each item
independently, so the multi-worker stages are their per-item bodies mapped
over the stream. -/
def collectorArrivals (getDetails : String → Except String ZyteDetails)
    (keepProduct : ZyteDetails → Bool) (call : ClassifierCall)
    (prompts : List Prompt) (st : DedupState) (items : List ProductItem) :
    List ProductItem :=
  (((collectUrlList st items).1.map (zyteItem getDetails keepProduct)).map
    (procItem call prompts))

/-- Dedup phase of one whole call to `run`: seed the previous-run set
(`orchestrator.py` lines 476-477), then let the single dedup worker process
the run's items. -/
def runDedupPhase (st : DedupState) (previously_collected_urls : List String)
    (items : List ProductItem) : List ProductItem × DedupState :=
  collectUrlList (runSeedPrevious st previously_collected_urls) items

/-- Worker counts per stage as spawned by `_setup_async_framework`
(`orchestrator.py` lines 319-359): a list of `n` tasks for serp, zyte and
proc, and a single task each for the url collector and the result collector. -/
structure WorkerCounts where
  serp : Nat
  url : Nat
  zyte : Nat
  proc : Nat
  res : Nat
deriving DecidableEq, Repr

/-- Counts handed to `_setup_async_framework` (`orchestrator.py` lines
296-375): one url collector and one result collector, `n` workers for the
pool stages. -/
def setupWorkerCounts (n_serp_wkrs n_zyte_wkrs n_proc_wkrs : Nat) : WorkerCounts :=
  { serp := n_serp_wkrs, url := 1, zyte := n_zyte_wkrs, proc := n_proc_wkrs, res := 1 }

/-- Configured maxima held by the orchestrator (`orchestrator.py` lines 106-108). -/
structure OrchestratorConfig where
  n_serp_wkrs : Nat := 10
  n_zyte_wkrs : Nat := 10
  n_proc_wkrs : Nat := 10
deriving DecidableEq, Repr

/-- Upper bound on the number of search tasks (`orchestrator.py` lines
480-482): the initial term plus the enrichment terms, if any. -/
def nTermsMax (deepness : Deepness) : Nat :=
  1 + (match deepness.enrichment with
       | some e => e.additional_terms
       | none => 0)

/-- Worker counts actually spawned by `run` (`orchestrator.py` lines
483-495): the configured maxima clamped by the available work. -/
def runWorkerCounts (cfg : OrchestratorConfig) (deepness : Deepness) : WorkerCounts :=
  setupWorkerCounts
    (min cfg.n_serp_wkrs (nTermsMax deepness))
    (min cfg.n_zyte_wkrs deepness.num_results)
    (min cfg.n_proc_wkrs deepness.num_results)

/-- The five pipeline stages, in pipeline order. -/
inductive Stage
  | serp
  | url
  | zyte
  | proc
  | res
deriving DecidableEq, Repr

/-- Orchestration steps performed by `run` after the search tasks are
enqueued (`orchestrator.py` lines 525-626).  `putSentinels s n` is the loop
putting `n` sentinels on stage `s`'s input queue; `awaitWorkers s` is the
`gather(..., return_exceptions=True)` (or plain await) over the stage's
workers, in which a worker that ended with an error is logged and counted as
concluded, never re-raised; `joinQueue s` is the `queue.join()` drain
barrier, reached unconditionally because it sits in a `finally` block. -/
inductive OrchEvent
  | putSentinels (s : Stage) (n : Nat)
  | awaitWorkers (s : Stage)
  | joinQueue (s : Stage)
deriving DecidableEq, Repr

/-- The exact sequence of orchestration steps `run` performs, stage by
stage, transcribed from `orchestrator.py` lines 525-626. -/
def runOrchestration (n_serp_wkrs n_zyte_wkrs n_proc_wkrs : Nat) : List OrchEvent :=
  [.putSentinels .serp n_serp_wkrs, .awaitWorkers .serp, .joinQueue .serp,
   .putSentinels .url 1, .awaitWorkers .url, .joinQueue .url,
   .putSentinels .zyte n_zyte_wkrs, .awaitWorkers .zyte, .joinQueue .zyte,
   .putSentinels .proc n_proc_wkrs, .awaitWorkers .proc, .joinQueue .proc,
   .putSentinels .res 1, .awaitWorkers .res, .joinQueue .res]

/-- Sentinels an orchestration event contributes to stage `s`. -/
def sentinelCount (s : Stage) : OrchEvent → Nat
  | .putSentinels s0 n => if s0 = s then n else 0
  | _ => 0

/-- Total number of sentinels enqueued for stage `s` during a run. -/
def totalSentinels (s : Stage) (events : List OrchEvent) : Nat :=
  (events.map (sentinelCount s)).sum

/-- Worker conclusions observed by the per-stage
`gather(..., return_exceptions=True)` loop (`orchestrator.py` lines
536-539): every worker result is inspected; the errors are logged and the
number of workers treated as concluded is the full pool size. -/
def gatherConcluded (results : List (Except String Unit)) : Nat :=
  results.length

/-- Error messages logged by the per-stage gather loop. -/
def gatherLoggedErrors (results : List (Except String Unit)) : List String :=
  results.filterMap fun r =>
    match r with
    | .error e => some e
    | .ok _ => none

/-- Per-item invariant of spec section 3: `filtered_at_stage` is set if and
only if `filtered` is true. -/
def stageInv (p : ProductItem) : Prop :=
  p.filtered_at_stage.isSome = p.filtered

instance (p : ProductItem) : Decidable (stageInv p) := by
  unfold stageInv
  infer_instance

/-- Same invariant for a raw search hit record. -/
def serpResultInv (r : SerpResult) : Prop :=
  r.filtered_at_stage.isSome = r.filtered

instance (r : SerpResult) : Decidable (serpResultInv r) := by
  unfold serpResultInv
  infer_instance

/-- Concrete unfiltered product item used for evaluating the definitions on
small inputs. -/
def sampleItem (u : String) : ProductItem :=
  { search_term := "term"
    search_term_type := "initial"
    url := u
    marketplace_name := "shop"
    domain := "example.com" }

/-- Concrete search task used for evaluating the definitions on small inputs. -/
def sampleTask : SearchTask :=
  { search_term := "term"
    search_term_type := "initial"
    language := { name := "German", code := "de" }
    location := { name := "Switzerland", code := "ch" }
    num_results := 3 }

/-! ## Helper lemmas about the generic worker loop -/

theorem runWorker_taskDone_eq_consumed {α β σ : Type} (body : σ → α → List β × σ)
    (st : σ) (ms : List (Option α)) :
    (runWorker body st ms).taskDone = (runWorker body st ms).consumed := by
  induction ms generalizing st with
  | nil => rfl
  | cons m rest ih =>
      cases m with
      | none => rfl
      | some a => simp [runWorker, ih]

theorem runWorker_consumed_eq {α β σ : Type} (body : σ → α → List β × σ)
    (st : σ) (ms : List (Option α)) :
    (runWorker body st ms).consumed = consumedCount ms := by
  induction ms generalizing st with
  | nil => rfl
  | cons m rest ih =>
      cases m with
      | none => rfl
      | some a => simp [runWorker, consumedCount, ih]

theorem runWorker_stops_at_sentinel {α β σ : Type} (body : σ → α → List β × σ)
    (st : σ) (ms₁ ms₂ : List (Option α)) (h : ∀ x ∈ ms₁, x ≠ none) :
    runWorker body st (ms₁ ++ none :: ms₂) = runWorker body st (ms₁ ++ [none]) := by
  induction ms₁ generalizing st with
  | nil => rfl
  | cons m rest ih =>
      cases m with
      | none => exact absurd rfl (h none (List.mem_cons_self _ _))
      | some a =>
          have ih2 := ih (body st a).2 (fun x hx => h x (List.mem_cons_of_mem _ hx))
          simp [runWorker, ih2]

theorem runWorker_consumed_full {α β σ : Type} (body : σ → α → List β × σ)
    (st : σ) (xs : List (Option α)) (h : ∀ x ∈ xs, x ≠ none) :
    (runWorker body st (xs ++ [none])).consumed = xs.length + 1 := by
  induction xs generalizing st with
  | nil => rfl
  | cons m rest ih =>
      cases m with
      | none => exact absurd rfl (h none (List.mem_cons_self _ _))
      | some a =>
          have ih2 := ih (body st a).2 (fun x hx => h x (List.mem_cons_of_mem _ hx))
          simp [runWorker, ih2]

theorem runWorker_skips_empty_body {α β σ : Type} (body : σ → α → List β × σ)
    (a : α) (hbody : ∀ st, body st a = ([], st)) (st : σ)
    (ms₁ ms₂ : List (Option α)) :
    (runWorker body st (ms₁ ++ some a :: ms₂)).outputs
      = (runWorker body st (ms₁ ++ ms₂)).outputs := by
  induction ms₁ generalizing st with
  | nil => simp [runWorker, hbody st]
  | cons m rest ih =>
      cases m with
      | none => rfl
      | some b => simp [runWorker, ih]

/-! ## Helper lemmas about the dedup stage -/

theorem collectUrlStep_url (st : DedupState) (p : ProductItem) :
    (collectUrlStep st p).1.url = p.url := by
  unfold collectUrlStep
  split
  · rfl
  · split
    · rfl
    · split <;> rfl

theorem collectUrlStep_current_mono (st : DedupState) (p : ProductItem) :
    st.current ⊆ (collectUrlStep st p).2.current := by
  unfold collectUrlStep
  split
  · exact fun u hu => hu
  · split
    · exact fun u hu => hu
    · split
      · exact fun u hu => hu
      · exact fun u hu => Finset.mem_insert_of_mem hu

theorem collectUrlStep_unfiltered (st : DedupState) (p : ProductItem)
    (h : (collectUrlStep st p).1.filtered = false) :
    p.filtered = false ∧ p.url ∉ st.current ∧
      (collectUrlStep st p).2.current = insert p.url st.current := by
  cases hfb : p.filtered with
  | true =>
      exfalso
      unfold collectUrlStep at h
      simp [hfb] at h
  | false =>
      by_cases hc : p.url ∈ st.current
      · exfalso
        unfold collectUrlStep at h
        simp [hfb, hc] at h
      · by_cases hp : p.url ∈ st.previous
        · exfalso
          unfold collectUrlStep at h
          simp [hfb, hc, hp] at h
        · refine ⟨rfl, hc, ?_⟩
          unfold collectUrlStep
          simp [hfb, hc, hp]

theorem collectUrlStep_inv (st : DedupState) (p : ProductItem)
    (h : stageInv p) : stageInv (collectUrlStep st p).1 := by
  unfold collectUrlStep
  split
  · exact h
  · split
    · simp [stageInv]
    · split
      · simp [stageInv]
      · exact h

theorem collectUrlStep_filtered_mono (st : DedupState) (p : ProductItem)
    (h : p.filtered = true) : (collectUrlStep st p).1.filtered = true := by
  unfold collectUrlStep
  simp [h]

theorem collectUrlList_length (st : DedupState) (items : List ProductItem) :
    (collectUrlList st items).1.length = items.length := by
  induction items generalizing st with
  | nil => rfl
  | cons p rest ih => simp [collectUrlList, ih]

theorem collectUrlList_current_mono (st : DedupState) (items : List ProductItem) :
    st.current ⊆ (collectUrlList st items).2.current := by
  induction items generalizing st with
  | nil => exact fun u hu => hu
  | cons p rest ih =>
      intro u hu
      exact ih (collectUrlStep st p).2 (collectUrlStep_current_mono st p hu)

theorem collectUrlList_unfiltered_not_mem (st : DedupState)
    (items : List ProductItem) (out : ProductItem)
    (hmem : out ∈ (collectUrlList st items).1) (hf : out.filtered = false) :
    out.url ∉ st.current := by
  induction items generalizing st with
  | nil => cases hmem
  | cons p rest ih =>
      simp only [collectUrlList, List.mem_cons] at hmem
      cases hmem with
      | inl h =>
          subst h
          have h2 := collectUrlStep_unfiltered st p hf
          rw [collectUrlStep_url st p]
          exact h2.2.1
      | inr h =>
          intro hu
          exact ih (collectUrlStep st p).2 h (collectUrlStep_current_mono st p hu)

theorem collectUrlList_unfiltered_mem_final (st : DedupState)
    (items : List ProductItem) (out : ProductItem)
    (hmem : out ∈ (collectUrlList st items).1) (hf : out.filtered = false) :
    out.url ∈ (collectUrlList st items).2.current := by
  induction items generalizing st with
  | nil => cases hmem
  | cons p rest ih =>
      simp only [collectUrlList, List.mem_cons] at hmem ⊢
      cases hmem with
      | inl h =>
          have h2 := collectUrlStep_unfiltered st p (h ▸ hf)
          have hu : out.url = p.url := by rw [h, collectUrlStep_url]
          have hmem2 : out.url ∈ (collectUrlStep st p).2.current := by
            rw [hu, h2.2.2]
            exact Finset.mem_insert_self _ _
          exact collectUrlList_current_mono (collectUrlStep st p).2 rest hmem2
      | inr h => exact ih (collectUrlStep st p).2 h

theorem collectUrlList_pairwise_urls (st : DedupState) (items : List ProductItem) :
    (collectUrlList st items).1.Pairwise
      (fun a b => a.filtered = false → b.filtered = false → a.url ≠ b.url) := by
  induction items generalizing st with
  | nil => exact List.Pairwise.nil
  | cons p rest ih =>
      simp only [collectUrlList]
      refine List.Pairwise.cons ?_ (ih (collectUrlStep st p).2)
      intro b hb hfa hfb
      have ha := collectUrlStep_unfiltered st p hfa
      have hnot := collectUrlList_unfiltered_not_mem (collectUrlStep st p).2 rest b hb hfb
      rw [ha.2.2] at hnot
      rw [collectUrlStep_url st p]
      intro heq
      exact hnot (heq ▸ Finset.mem_insert_self p.url st.current)

/-! ## Helper lemmas about the detail and classify stages -/

theorem zyteItem_url (g : String → Except String ZyteDetails)
    (k : ZyteDetails → Bool) (p : ProductItem) : (zyteItem g k p).url = p.url := by
  unfold zyteItem
  split
  · rfl
  · split
    · rfl
    · split <;> rfl

theorem zyteItem_filtered_mono (g : String → Except String ZyteDetails)
    (k : ZyteDetails → Bool) (p : ProductItem) (h : p.filtered = true) :
    (zyteItem g k p).filtered = true := by
  unfold zyteItem
  simp [h]

theorem zyteItem_unfiltered_of (g : String → Except String ZyteDetails)
    (k : ZyteDetails → Bool) (p : ProductItem)
    (h : (zyteItem g k p).filtered = false) : p.filtered = false := by
  cases hfb : p.filtered with
  | false => rfl
  | true => rw [zyteItem_filtered_mono g k p hfb] at h; cases h

theorem zyteItem_inv (g : String → Except String ZyteDetails)
    (k : ZyteDetails → Bool) (p : ProductItem) (h : stageInv p) :
    stageInv (zyteItem g k p) := by
  unfold zyteItem
  split
  · exact h
  · split
    · exact h
    · split
      · exact h
      · simp [stageInv]

theorem setEntry_of_not_mem (m : List (String × Int)) (k : String) (v : Int)
    (h : k ∉ m.map Prod.fst) : setEntry m k v = m ++ [(k, v)] := by
  induction m with
  | nil => rfl
  | cons kv rest ih =>
      simp only [List.map_cons, List.mem_cons, not_or] at h
      cases kv with
      | mk k0 v0 =>
          have h1 : ¬k0 = k := fun he => h.1 (he.symm)
          simp only [setEntry, if_neg h1, List.cons_append, List.cons.injEq, true_and]
          exact ih h.2

/-- The classify loop only ever touches the `classifications` field; the
per-prompt values are read from the incoming product, fixed before the loop. -/
theorem procItem_foldl (call : ClassifierCall) (prompts : List Prompt)
    (q : ProductItem) :
    prompts.foldl
      (fun q0 prompt =>
        { q0 with
            classifications :=
              setEntry q0.classifications prompt.name
                (classify call prompt q.url q.product_name q.product_description) })
      q
    = { q with
          classifications :=
            prompts.foldl
              (fun m prompt =>
                setEntry m prompt.name
                  (classify call prompt q.url q.product_name q.product_description))
              q.classifications } := by
  suffices hgen : ∀ (ps : List Prompt) (r : ProductItem),
      ps.foldl
        (fun q0 prompt =>
          { q0 with
              classifications :=
                setEntry q0.classifications prompt.name
                  (classify call prompt q.url q.product_name q.product_description) })
        r
      = { r with
            classifications :=
              ps.foldl
                (fun m prompt =>
                  setEntry m prompt.name
                    (classify call prompt q.url q.product_name q.product_description))
                r.classifications } by
    exact hgen prompts q
  intro ps
  induction ps with
  | nil => intro r; rfl
  | cons pr rest ih => intro r; simp only [List.foldl_cons, ih]

theorem foldl_setEntry_fresh (val : Prompt → Int) (prompts : List Prompt)
    (m : List (String × Int))
    (hfresh : ∀ pr ∈ prompts, pr.name ∉ m.map Prod.fst)
    (hnd : (prompts.map Prompt.name).Nodup) :
    prompts.foldl (fun m0 pr => setEntry m0 pr.name (val pr)) m
      = m ++ prompts.map (fun pr => (pr.name, val pr)) := by
  induction prompts generalizing m with
  | nil => simp
  | cons pr rest ih =>
      simp only [List.foldl_cons, List.map_cons]
      rw [setEntry_of_not_mem m pr.name (val pr) (hfresh pr (List.mem_cons_self _ _))]
      simp only [List.map_cons, List.nodup_cons] at hnd
      rw [ih (m ++ [(pr.name, val pr)])
        (fun pr2 h2 => by
          simp only [List.map_append, List.mem_append, List.map_cons]
          rintro (hc | hc)
          · exact hfresh pr2 (List.mem_cons_of_mem _ h2) hc
          · simp only [List.map_nil, List.mem_singleton] at hc
            exact hnd.1 (hc ▸ List.mem_map_of_mem Prompt.name h2))
        hnd.2]
      simp

theorem classify_mem_or_default (call : ClassifierCall) (pr : Prompt)
    (url : String) (name description : Option String) :
    classify call pr url name description ∈ pr.allowed_classes ∨
      classify call pr url name description = pr.default_if_missing := by
  cases name with
  | none => exact Or.inr (by simp [classify])
  | some n =>
      cases description with
      | none => exact Or.inr (by simp [classify])
      | some d =>
          cases hcall : call pr url n d with
          | error e => exact Or.inr (by simp [classify, hcall])
          | ok c =>
              by_cases hc : c ∈ pr.allowed_classes
              · exact Or.inl (by simp [classify, hcall, hc])
              · exact Or.inr (by simp [classify, hcall, hc])

theorem procItem_classifications (call : ClassifierCall) (prompts : List Prompt)
    (p : ProductItem) (hf : p.filtered = false) (hcs : p.classifications = [])
    (hnd : (prompts.map Prompt.name).Nodup) :
    (procItem call prompts p).classifications
      = prompts.map (fun pr =>
          (pr.name,
            classify call pr p.url p.product_name p.product_description)) := by
  unfold procItem
  rw [if_neg (by simp [hf]), procItem_foldl]
  simp only
  rw [hcs, foldl_setEntry_fresh _ prompts [] (by simp) hnd]
  simp

theorem procItem_filtered (call : ClassifierCall) (prompts : List Prompt)
    (p : ProductItem) : (procItem call prompts p).filtered = p.filtered := by
  unfold procItem
  split
  · rfl
  · rw [procItem_foldl]

theorem procItem_url (call : ClassifierCall) (prompts : List Prompt)
    (p : ProductItem) : (procItem call prompts p).url = p.url := by
  unfold procItem
  split
  · rfl
  · rw [procItem_foldl]

theorem procItem_inv (call : ClassifierCall) (prompts : List Prompt)
    (p : ProductItem) (h : stageInv p) : stageInv (procItem call prompts p) := by
  unfold procItem
  split
  · exact h
  · rw [procItem_foldl]
    exact h

theorem collectUrlWorker_outputs_length (st : DedupState)
    (ms : List (Option ProductItem)) :
    (collectUrlWorker st ms).outputs.length = itemsConsumed ms := by
  induction ms generalizing st with
  | nil => rfl
  | cons m rest ih =>
      cases m with
      | none => rfl
      | some p =>
          simp only [collectUrlWorker, runWorker, collectUrlBody] at ih ⊢
          simp [itemsConsumed, ih]

/-! ## Claim theorems -/

/-- C1: `Orchestrator.run` with a non-empty `previously_collected_urls` list
does not seed the previous-run set with the supplied URLs.  Evaluated at the
failing input: a fresh orchestrator (both URL sets empty) is given
`previously_collected_urls = ["u1"]`; the previous-run set stays empty, and
an unfiltered incoming item with url `"u1"` is forwarded unfiltered with no
stage label instead of being marked as a previous-run duplicate.  The code
assigns `set(self._collected_urls_current_run)` and never reads the supplied
list, contradicting both the spec and the parameter's own docstring. -/
theorem previously_collected_urls_ignored_at_failing_input :
    (runSeedPrevious ⟨∅, ∅⟩ ["u1"]).previous = (∅ : Finset String)
    ∧ (collectUrlStep (runSeedPrevious ⟨∅, ∅⟩ ["u1"]) (sampleItem "u1")).1.filtered
        = false
    ∧ (collectUrlStep (runSeedPrevious ⟨∅, ∅⟩ ["u1"]) (sampleItem "u1")).1.filtered_at_stage
        = none := by
  decide

/-- C4 counterexample: the claim's stage label is wrong.  An unfiltered item
whose url is already in the current-run set is marked filtered, but its
`filtered_at_stage` is not the claimed string `"current-run duplicate"`
(the code writes `"URL collection (current run deduplication)"`). -/
theorem collect_url_label_differs_from_claim :
    (collectUrlStep ⟨{"u1"}, ∅⟩ (sampleItem "u1")).1.filtered = true
    ∧ (collectUrlStep ⟨{"u1"}, ∅⟩ (sampleItem "u1")).1.filtered_at_stage
        ≠ some "current-run duplicate" := by
  decide

/-- C4 (amended): for every `ProductItem` dequeued by the single dedup
worker: an already-filtered item is forwarded unchanged; otherwise a url in
the current-run set is marked filtered with stage label
`"URL collection (current run deduplication)"`, else a url in the
previous-run set is marked filtered with stage label
`"URL collection (previous run deduplication)"`, else the url is added to
the current-run set; in every case exactly one item is forwarded per
dequeued item, never dropped. -/
theorem collect_url_dedup_cases (st : DedupState) (p : ProductItem) :
    (p.filtered = true → collectUrlBody st p = ([p], st))
    ∧ (p.filtered = false → p.url ∈ st.current →
        collectUrlBody st p =
          ([{ p with
                filtered := true
                filtered_at_stage := some currentRunLabel }], st))
    ∧ (p.filtered = false → p.url ∉ st.current → p.url ∈ st.previous →
        collectUrlBody st p =
          ([{ p with
                filtered := true
                filtered_at_stage := some previousRunLabel }], st))
    ∧ (p.filtered = false → p.url ∉ st.current → p.url ∉ st.previous →
        collectUrlBody st p = ([p], { st with current := insert p.url st.current }))
    ∧ (∀ ms, (collectUrlWorker st ms).outputs.length = itemsConsumed ms) := by
  refine ⟨?_, ?_, ?_, ?_, collectUrlWorker_outputs_length st⟩
  · intro h
    simp [collectUrlBody, collectUrlStep, h]
  · intro h hc
    simp [collectUrlBody, collectUrlStep, h, hc]
  · intro h hc hp
    simp [collectUrlBody, collectUrlStep, h, hc, hp]
  · intro h hc hp
    simp [collectUrlBody, collectUrlStep, h, hc, hp]

/-- Witness for C4: the current-run duplicate branch evaluated on a concrete
item and state. -/
theorem collect_url_dedup_cases_witness :
    (sampleItem "u1").filtered = false
    ∧ (sampleItem "u1").url ∈ (⟨{"u1"}, ∅⟩ : DedupState).current
    ∧ collectUrlBody ⟨{"u1"}, ∅⟩ (sampleItem "u1") =
        ([{ sampleItem "u1" with
              filtered := true
              filtered_at_stage := some currentRunLabel }], ⟨{"u1"}, ∅⟩) :=
  ⟨by decide, by decide,
    (collect_url_dedup_cases ⟨{"u1"}, ∅⟩ (sampleItem "u1")).2.1 (by decide) (by decide)⟩

/-- C5: in a single run, any two distinct items that reach the result
collector with `filtered = false` have different urls.  The collector stream
is the dedup output transformed per item by the detail and classify stages;
dedup admits at most one unfiltered item per url, and the later stages
preserve `url` and never reset `filtered`. -/
theorem collector_unfiltered_urls_distinct
    (g : String → Except String ZyteDetails) (k : ZyteDetails → Bool)
    (call : ClassifierCall) (prompts : List Prompt) (st : DedupState)
    (items : List ProductItem) (i j : Nat)
    (hi : i < (collectorArrivals g k call prompts st items).length)
    (hj : j < (collectorArrivals g k call prompts st items).length)
    (hij : i ≠ j)
    (hfi : (collectorArrivals g k call prompts st items)[i].filtered = false)
    (hfj : (collectorArrivals g k call prompts st items)[j].filtered = false) :
    (collectorArrivals g k call prompts st items)[i].url
      ≠ (collectorArrivals g k call prompts st items)[j].url := by
  have hpair :
      (collectorArrivals g k call prompts st items).Pairwise
        (fun a b => a.filtered = false → b.filtered = false → a.url ≠ b.url) := by
    unfold collectorArrivals
    rw [List.pairwise_map, List.pairwise_map]
    refine (collectUrlList_pairwise_urls st items).imp ?_
    intro a b hab
    rw [procItem_filtered, procItem_filtered, procItem_url, procItem_url,
      zyteItem_url, zyteItem_url]
    intro ha hb
    exact hab (zyteItem_unfiltered_of g k a ha) (zyteItem_unfiltered_of g k b hb)
  rcases Nat.lt_or_ge i j with hlt | hge
  · exact (List.pairwise_iff_getElem.mp hpair i j hi hj hlt) hfi hfj
  · have hlt : j < i := Nat.lt_of_le_of_ne hge (fun he => hij he.symm)
    exact fun he =>
      (List.pairwise_iff_getElem.mp hpair j i hj hi hlt) hfj hfi he.symm

/-- Witness for C5: a concrete run with two distinct urls, both surviving
unfiltered to the collector. -/
theorem collector_unfiltered_urls_distinct_witness :
    ((collectorArrivals (fun _ => .error "boom") (fun _ => true)
        (fun _ _ _ _ => .error "boom") [] ⟨∅, ∅⟩
        [sampleItem "u1", sampleItem "u2"]).get ⟨0, by decide⟩).url
      ≠ ((collectorArrivals (fun _ => .error "boom") (fun _ => true)
        (fun _ _ _ _ => .error "boom") [] ⟨∅, ∅⟩
        [sampleItem "u1", sampleItem "u2"]).get ⟨1, by decide⟩).url :=
  collector_unfiltered_urls_distinct _ _ _ _ _ _ 0 1 (by decide) (by decide)
    (by decide) (by decide) (by decide)

/-- C2: for every item reaching the classify stage unfiltered (with the
empty classifications map it was created with) and every configured prompt
list with pairwise-distinct names, the stage leaves exactly one entry per
prompt — the map equals, entry for entry, the prompts paired with their
classification — and every stored value is in the prompt's
`allowed_classes` or equals its `default_if_missing`.  The collaborator call
`call` is arbitrary, so it may fail on any subset of the prompts: a failure
on one prompt never prevents the remaining prompts from receiving their
entry, because `Processor.classify` resolves every failure to the prompt's
default instead of raising. -/
theorem classify_stage_completeness (call : ClassifierCall)
    (prompts : List Prompt) (p : ProductItem) (hf : p.filtered = false)
    (hcs : p.classifications = []) (hnd : (prompts.map Prompt.name).Nodup) :
    (procItem call prompts p).classifications
      = prompts.map (fun pr =>
          (pr.name, classify call pr p.url p.product_name p.product_description))
    ∧ (procItem call prompts p).classifications.length = prompts.length
    ∧ (∀ kv ∈ (procItem call prompts p).classifications,
        ∃ pr ∈ prompts, kv.1 = pr.name ∧
          (kv.2 ∈ pr.allowed_classes ∨ kv.2 = pr.default_if_missing)) := by
  have hmap := procItem_classifications call prompts p hf hcs hnd
  refine ⟨hmap, by rw [hmap, List.length_map], ?_⟩
  intro kv hkv
  rw [hmap] at hkv
  rcases List.mem_map.mp hkv with ⟨pr, hpr, hkv2⟩
  exact ⟨pr, hpr, by rw [← hkv2],
    by rw [← hkv2]
       exact classify_mem_or_default call pr p.url p.product_name
         p.product_description⟩

/-- Witness for C2: two prompts, a classifier collaborator that fails on
every call; both prompts still receive an entry, with the default values. -/
theorem classify_stage_completeness_witness :
    (sampleItem "u1").filtered = false
    ∧ (sampleItem "u1").classifications = []
    ∧ (([{ name := "P1", context := "c", system_prompt := "s",
            user_prompt_template := "u", allowed_classes := {0, 1},
            default_if_missing := -1 },
         { name := "P2", context := "c", system_prompt := "s",
            user_prompt_template := "u", allowed_classes := {0, 1},
            default_if_missing := -1 }]
        : List Prompt).map Prompt.name).Nodup
    ∧ (procItem (fun _ _ _ _ => .error "api down")
        [{ name := "P1", context := "c", system_prompt := "s",
            user_prompt_template := "u", allowed_classes := {0, 1},
            default_if_missing := -1 },
         { name := "P2", context := "c", system_prompt := "s",
            user_prompt_template := "u", allowed_classes := {0, 1},
            default_if_missing := -1 }]
        (sampleItem "u1")).classifications.length = 2 :=
  ⟨by decide, by decide, by decide,
    (classify_stage_completeness (fun _ _ _ _ => .error "api down") _ _
      (by decide) (by decide) (by decide)).2.1⟩

/-- C6: the filtered flag is monotone and the stage-label invariant is
preserved at every point in the pipeline: a search hit record satisfying the
invariant yields a created item satisfying it, and each stage body (dedup,
detail, classify) keeps `filtered = true` once set and keeps
`filtered_at_stage` non-null exactly when `filtered` is true. -/
theorem filtered_monotone_and_stage_label_iff
    (g : String → Except String ZyteDetails) (k : ZyteDetails → Bool)
    (call : ClassifierCall) (prompts : List Prompt) (st : DedupState)
    (task : SearchTask) (r : SerpResult) (p : ProductItem) :
    (serpResultInv r → stageInv (mkProductItem task r))
    ∧ (p.filtered = true →
        (collectUrlStep st p).1.filtered = true
        ∧ (zyteItem g k p).filtered = true
        ∧ (procItem call prompts p).filtered = true)
    ∧ (stageInv p →
        stageInv (collectUrlStep st p).1
        ∧ stageInv (zyteItem g k p)
        ∧ stageInv (procItem call prompts p)) := by
  refine ⟨?_, ?_, ?_⟩
  · intro h
    exact h
  · intro h
    exact ⟨collectUrlStep_filtered_mono st p h, zyteItem_filtered_mono g k p h,
      by rw [procItem_filtered]; exact h⟩
  · intro h
    exact ⟨collectUrlStep_inv st p h, zyteItem_inv g k p h,
      procItem_inv call prompts p h⟩

/-- Witness for C6: evaluated on a concrete filtered item and a concrete
search record. -/
theorem filtered_monotone_and_stage_label_iff_witness :
    serpResultInv
      { url := "u1"
        marketplace_name := "shop"
        domain := "example.com"
        filtered := true
        filtered_at_stage := some "SERP country filter" }
    ∧ stageInv (mkProductItem
        { search_term := "term"
          search_term_type := "initial"
          language := { name := "German", code := "de" }
          location := { name := "Switzerland", code := "ch" }
          num_results := 3 }
        { url := "u1"
          marketplace_name := "shop"
          domain := "example.com"
          filtered := true
          filtered_at_stage := some "SERP country filter" }) :=
  ⟨by decide,
    (filtered_monotone_and_stage_label_iff (fun _ => .error "e") (fun _ => true)
      (fun _ _ _ _ => .error "e") [] ⟨∅, ∅⟩ _ _ (sampleItem "u1")).1 (by decide)⟩

theorem consumedCount_full {α : Type} (xs : List (Option α))
    (h : ∀ x ∈ xs, x ≠ none) : consumedCount (xs ++ [none]) = xs.length + 1 := by
  induction xs with
  | nil => rfl
  | cons m rest ih =>
      cases m with
      | none => exact absurd rfl (h none (List.mem_cons_self _ _))
      | some a =>
          have ih2 := ih (fun x hx => h x (List.mem_cons_of_mem _ hx))
          simp [consumedCount, ih2]

/-- C9: the current-run URL-seen set of an orchestrator instance is never
cleared by `run`: seeding leaves it untouched, every url in it before a run
is still in it after the run's dedup pass, every url of an unfiltered item
forwarded during the run is in it afterwards, and an unfiltered item of a
later run whose url is in it is marked as a current-run duplicate.  When
`previously_collected_urls` is non-empty, the previous-run set becomes a
copy of the current-run set, not the supplied list. -/
theorem current_run_set_persists_across_runs (st : DedupState)
    (l : List String) (items : List ProductItem) (p : ProductItem) :
    (l ≠ [] → (runSeedPrevious st l).previous = st.current)
    ∧ (runSeedPrevious st l).current = st.current
    ∧ (∀ u ∈ st.current, u ∈ (runDedupPhase st l items).2.current)
    ∧ (∀ out ∈ (runDedupPhase st l items).1, out.filtered = false →
        out.url ∈ (runDedupPhase st l items).2.current)
    ∧ (p.filtered = false → p.url ∈ (runDedupPhase st l items).2.current →
        (collectUrlStep (runDedupPhase st l items).2 p).1.filtered = true
        ∧ (collectUrlStep (runDedupPhase st l items).2 p).1.filtered_at_stage
            = some currentRunLabel) := by
  have hseed : (runSeedPrevious st l).current = st.current := by
    unfold runSeedPrevious
    split <;> rfl
  refine ⟨?_, hseed, ?_, ?_, ?_⟩
  · intro h
    unfold runSeedPrevious
    rw [if_neg (by simp [List.isEmpty_iff, h])]
  · intro u hu
    exact collectUrlList_current_mono (runSeedPrevious st l) items (hseed ▸ hu)
  · intro out hmem hf
    exact collectUrlList_unfiltered_mem_final (runSeedPrevious st l) items out hmem hf
  · intro hf hm
    constructor <;> · unfold collectUrlStep; simp [hf, hm]

/-- Witness for C9: a first run collects url `u1`; in a second run on the
same instance an unfiltered item with url `u1` is marked as a current-run
duplicate. -/
theorem current_run_set_persists_across_runs_witness :
    (sampleItem "u1").filtered = false
    ∧ (sampleItem "u1").url
        ∈ (runDedupPhase ⟨∅, ∅⟩ ["x"] [sampleItem "u1"]).2.current
    ∧ (collectUrlStep (runDedupPhase ⟨∅, ∅⟩ ["x"] [sampleItem "u1"]).2
        (sampleItem "u1")).1.filtered_at_stage = some currentRunLabel :=
  ⟨by decide, by decide,
    ((current_run_set_persists_across_runs ⟨∅, ∅⟩ ["x"] [sampleItem "u1"]
      (sampleItem "u1")).2.2.2.2 (by decide) (by decide)).2⟩

/-- C3: the stage-advancement protocol of `run`, read off the orchestration
event sequence: for each stage in pipeline order the sentinels (one per
worker of that stage) are enqueued, then the stage's workers are awaited
(`gather` with `return_exceptions=True`, so a worker ending with an error is
logged and counted as concluded), then the stage's drain barrier is awaited
— and only then do the next stage's sentinels appear.  The total sentinel
count per stage equals that stage's worker count, the gather loop treats
every worker (failed or not) as concluded, and the final event of the run is
the result collector's drain barrier. -/
theorem run_stage_advancement_protocol (a b c : Nat) :
    (runOrchestration a b c).length = 15
    ∧ (runOrchestration a b c)[0]? = some (.putSentinels .serp a)
    ∧ (runOrchestration a b c)[1]? = some (.awaitWorkers .serp)
    ∧ (runOrchestration a b c)[2]? = some (.joinQueue .serp)
    ∧ (runOrchestration a b c)[3]? = some (.putSentinels .url 1)
    ∧ (runOrchestration a b c)[4]? = some (.awaitWorkers .url)
    ∧ (runOrchestration a b c)[5]? = some (.joinQueue .url)
    ∧ (runOrchestration a b c)[6]? = some (.putSentinels .zyte b)
    ∧ (runOrchestration a b c)[7]? = some (.awaitWorkers .zyte)
    ∧ (runOrchestration a b c)[8]? = some (.joinQueue .zyte)
    ∧ (runOrchestration a b c)[9]? = some (.putSentinels .proc c)
    ∧ (runOrchestration a b c)[10]? = some (.awaitWorkers .proc)
    ∧ (runOrchestration a b c)[11]? = some (.joinQueue .proc)
    ∧ (runOrchestration a b c)[12]? = some (.putSentinels .res 1)
    ∧ (runOrchestration a b c)[13]? = some (.awaitWorkers .res)
    ∧ (runOrchestration a b c)[14]? = some (.joinQueue .res)
    ∧ totalSentinels .serp (runOrchestration a b c) = (setupWorkerCounts a b c).serp
    ∧ totalSentinels .url (runOrchestration a b c) = (setupWorkerCounts a b c).url
    ∧ totalSentinels .zyte (runOrchestration a b c) = (setupWorkerCounts a b c).zyte
    ∧ totalSentinels .proc (runOrchestration a b c) = (setupWorkerCounts a b c).proc
    ∧ totalSentinels .res (runOrchestration a b c) = (setupWorkerCounts a b c).res
    ∧ (∀ results, gatherConcluded results = results.length) := by
  refine ⟨rfl, rfl, rfl, rfl, rfl, rfl, rfl, rfl, rfl, rfl, rfl, rfl, rfl, rfl,
    rfl, rfl, ?_, ?_, ?_, ?_, ?_, fun _ => rfl⟩
  all_goals
    simp [runOrchestration, totalSentinels, sentinelCount, setupWorkerCounts]

/-- C7: for every configuration and deepness, `run` spawns
`min(configured, 1 + additional_terms)` search workers (`1` when no
enrichment is configured), `min(configured, num_results)` detail and
classify workers, and exactly one dedup worker and one result collector; in
particular `num_results = 3` with a configured maximum of 10 yields exactly
3 detail workers. -/
theorem worker_pool_sizing (cfg : OrchestratorConfig) (d : Deepness) :
    (runWorkerCounts cfg d).serp
      = min cfg.n_serp_wkrs
          (match d.enrichment with
           | some e => 1 + e.additional_terms
           | none => 1)
    ∧ (runWorkerCounts cfg d).zyte = min cfg.n_zyte_wkrs d.num_results
    ∧ (runWorkerCounts cfg d).proc = min cfg.n_proc_wkrs d.num_results
    ∧ (runWorkerCounts cfg d).url = 1
    ∧ (runWorkerCounts cfg d).res = 1
    ∧ (runWorkerCounts { n_serp_wkrs := 10, n_zyte_wkrs := 10, n_proc_wkrs := 10 }
        { num_results := 3, enrichment := none }).zyte = 3 := by
  refine ⟨?_, rfl, rfl, rfl, rfl, by decide⟩
  cases h : d.enrichment with
  | none => simp [runWorkerCounts, setupWorkerCounts, nTermsMax, h]
  | some e => simp [runWorkerCounts, setupWorkerCounts, nTermsMax, h]

/-- C8: collaborator call errors are isolated.  A search task on which the
search collaborator raises contributes no items and the worker continues
with the rest of its queue; an unfiltered detail-stage item on which the
detail fetch raises is forwarded unchanged (unfiltered, detail fields
untouched); and a worker's queue consumption is determined by its queue
contents alone, independent of any collaborator errors, so no error ever
terminates a worker. -/
theorem collaborator_errors_isolated
    (serpApply : SearchTask → Except String (List SerpResult))
    (g : String → Except String ZyteDetails) (k : ZyteDetails → Bool)
    (e : String) (t : SearchTask) (ms₁ ms₂ : List (Option SearchTask))
    (p : ProductItem) :
    (serpApply t = .error e →
        (serpWorker serpApply (ms₁ ++ some t :: ms₂)).outputs
          = (serpWorker serpApply (ms₁ ++ ms₂)).outputs)
    ∧ (p.filtered = false → g p.url = .error e → zyteItem g k p = p)
    ∧ (∀ ms : List (Option SearchTask),
        (serpWorker serpApply ms).consumed = consumedCount ms)
    ∧ (∀ ms : List (Option ProductItem),
        (zyteWorker g k ms).consumed = consumedCount ms) := by
  refine ⟨?_, ?_, ?_, ?_⟩
  · intro h
    exact runWorker_skips_empty_body (serpBody serpApply) t
      (fun st => by cases st; simp [serpBody, h]) () ms₁ ms₂
  · intro hf hg
    unfold zyteItem
    simp [hf, hg]
  · intro ms
    exact runWorker_consumed_eq (serpBody serpApply) () ms
  · intro ms
    exact runWorker_consumed_eq (zyteBody g k) () ms

/-- Witness for C8: a search collaborator and detail collaborator that fail
on every call, evaluated on concrete queues and items. -/
theorem collaborator_errors_isolated_witness :
    (serpWorker (fun _ => .error "boom") [some sampleTask, none]).outputs
      = (serpWorker (fun _ => .error "boom") [none]).outputs
    ∧ zyteItem (fun _ => .error "boom") (fun _ => true) (sampleItem "u1")
        = sampleItem "u1" :=
  ⟨(collaborator_errors_isolated (fun _ => .error "boom")
      (fun _ => .error "boom") (fun _ => true) "boom" sampleTask [] [none]
      (sampleItem "u1")).1 rfl,
    (collaborator_errors_isolated (fun _ => .error "boom")
      (fun _ => .error "boom") (fun _ => true) "boom" sampleTask [] [none]
      (sampleItem "u1")).2.1 (by decide) rfl⟩

/-- C10: every stage worker acknowledges (`task_done`) exactly once each
element it dequeues, including the sentinel; its loop terminates at its
first sentinel, ignoring everything a hypothetical queue would hold beyond
it; and over any partition of a stage's queue elements into per-worker
dequeue sequences each ending in that worker's sentinel, the total number of
`task_done` calls equals the total number of enqueued elements — which is
exactly the condition for the stage's `queue.join()` drain barrier to
return. -/
theorem worker_sentinel_accounting
    (serpApply : SearchTask → Except String (List SerpResult))
    (g : String → Except String ZyteDetails) (k : ZyteDetails → Bool)
    (call : ClassifierCall) (prompts : List Prompt) (st : DedupState) :
    (∀ ms, (serpWorker serpApply ms).taskDone = (serpWorker serpApply ms).consumed)
    ∧ (∀ ms, (collectUrlWorker st ms).taskDone = (collectUrlWorker st ms).consumed)
    ∧ (∀ ms, (zyteWorker g k ms).taskDone = (zyteWorker g k ms).consumed)
    ∧ (∀ ms, (procWorker call prompts ms).taskDone
          = (procWorker call prompts ms).consumed)
    ∧ (∀ ms₁ ms₂ : List (Option ProductItem), (∀ x ∈ ms₁, x ≠ none) →
        collectUrlWorker st (ms₁ ++ none :: ms₂)
          = collectUrlWorker st (ms₁ ++ [none]))
    ∧ (∀ streams : List (List (Option ProductItem)),
        (∀ s ∈ streams, ∃ xs, (∀ x ∈ xs, x ≠ none) ∧ s = xs ++ [none]) →
        (streams.map (fun s => (procWorker call prompts s).taskDone)).sum
          = (streams.map List.length).sum) := by
  refine ⟨fun ms => runWorker_taskDone_eq_consumed _ _ ms,
    fun ms => runWorker_taskDone_eq_consumed _ _ ms,
    fun ms => runWorker_taskDone_eq_consumed _ _ ms,
    fun ms => runWorker_taskDone_eq_consumed _ _ ms,
    fun ms₁ ms₂ h => runWorker_stops_at_sentinel _ _ ms₁ ms₂ h, ?_⟩
  intro streams hstreams
  induction streams with
  | nil => rfl
  | cons s rest ih =>
      obtain ⟨xs, hxs, hs⟩ := hstreams s (List.mem_cons_self _ _)
      have hlen : (procWorker call prompts s).taskDone = s.length := by
        unfold procWorker
        rw [runWorker_taskDone_eq_consumed, runWorker_consumed_eq, hs,
          consumedCount_full xs hxs]
        simp
      simp only [List.map_cons, List.sum_cons, hlen,
        ih (fun s2 h2 => hstreams s2 (List.mem_cons_of_mem _ h2))]

/-- Witness for C10: the dedup worker stops at its first sentinel and its
`task_done` count matches its dequeues on a concrete queue. -/
theorem worker_sentinel_accounting_witness :
    collectUrlWorker ⟨∅, ∅⟩ ([some (sampleItem "u1")] ++ none :: [some (sampleItem "u2")])
      = collectUrlWorker ⟨∅, ∅⟩ ([some (sampleItem "u1")] ++ [none]) :=
  (worker_sentinel_accounting (fun _ => .error "boom") (fun _ => .error "boom")
    (fun _ => true) (fun _ _ _ _ => .error "boom") [] ⟨∅, ∅⟩).2.2.2.2.1
    [some (sampleItem "u1")] [some (sampleItem "u2")] (by decide)

end FraudCrawler
